import Mathlib

/-!
Verification of the RBAC policy engine of the secure-project-mgmt-rbac
repository. The repository ships the exercise statement (src/README.md,
whose FAQ contains the reference code snippets for the update-route guard
and for hasAnyPermission) and the starter server (src/app.js, with the
mock authentication middleware). The policy evaluator itself
(middleware/rbac.js, config/roles.js) is described by the design
specification; definitions for those parts are modelled from the spec and
marked as such.
-/

namespace RBAC

abbrev Permission := String
abbrev RoleId := String

/-- Permission catalog, from src/README.md Task 1 (project, task and team
operations). -/
def CREATE_PROJECT : Permission := "CREATE_PROJECT"

def VIEW_PROJECT : Permission := "VIEW_PROJECT"

def UPDATE_PROJECT : Permission := "UPDATE_PROJECT"

def DELETE_PROJECT : Permission := "DELETE_PROJECT"

def CREATE_TASK : Permission := "CREATE_TASK"

def VIEW_TASK : Permission := "VIEW_TASK"

def UPDATE_TASK : Permission := "UPDATE_TASK"

def DELETE_TASK : Permission := "DELETE_TASK"

def VIEW_TEAM : Permission := "VIEW_TEAM"

def MANAGE_TEAM : Permission := "MANAGE_TEAM"

/-- Modelled from the spec: the recursive PolicyRequirement tagged value
(spec sections 3 and 4.4); middleware/rbac.js is not part of src/. A flat
permission-set requirement is the AnyOf/AllOf of Single leaves. -/
inductive Req where
  | Single (p : Permission)
  | RoleExact (r : RoleId)
  | AnyOf (rs : List Req)
  | AllOf (rs : List Req)
deriving Repr

/-- AnyOf over a flat permission set, as in spec section 3. -/
def AnyOfP (ps : List Permission) : Req := .AnyOf (ps.map .Single)

/-- AllOf over a flat permission set, as in spec section 3. -/
def AllOfP (ps : List Permission) : Req := .AllOf (ps.map .Single)

/-- Modelled from the spec: the Verdict type of spec section 3 — Allow or
Deny with a reason and the missing-permission set. -/
inductive Verdict where
  | Allow
  | Deny (reason : String) (missing : List Permission)
deriving DecidableEq, Repr

def Verdict.isAllow : Verdict → Bool
  | .Allow => true
  | .Deny _ _ => false

/-- Modelled from the spec: a Role Registry is a pure lookup from role
identifier to granted permission set (spec section 4.2); config/roles.js
is not part of src/. -/
abbrev Registry := RoleId → Option (List Permission)

/-- Modelled from the spec: the Principal of spec section 6 — subject
identity plus exactly one role identifier. -/
structure Principal where
  subjectId : String
  roleId : RoleId
deriving DecidableEq, Repr

mutual

/-- The full permission set mentioned by a requirement, used for the
unknown-role Deny and for AnyOf Deny reporting (spec sections 4.3, 7). -/
def permsOfReq : Req → List Permission
  | .Single p => [p]
  | .RoleExact _ => []
  | .AnyOf rs => permsOfList rs
  | .AllOf rs => permsOfList rs

/-- Union (as list concatenation) of the permission sets of a list of
sub-requirements. -/
def permsOfList : List Req → List Permission
  | [] => []
  | r :: rs => permsOfReq r ++ permsOfList rs

end

mutual

/-- Modelled from the spec: the requirement-tag branch of the Policy
Evaluator (spec section 4.3 step 2), for an already-resolved role with
permission set perms and identifier roleId. -/
def evalReq (perms : List Permission) (roleId : RoleId) : Req → Verdict
  | .Single p =>
      if perms.contains p then .Allow
      else .Deny ("missing permission " ++ p) [p]
  | .RoleExact r =>
      if roleId = r then .Allow
      else .Deny ("requires role " ++ r ++ ", has role " ++ roleId) []
  | .AnyOf rs =>
      if evalAny perms roleId rs then .Allow
      else .Deny "insufficient permissions" (permsOfList rs)
  | .AllOf rs =>
      if evalAll perms roleId rs then .Allow
      else .Deny "missing permissions" (missingAll perms roleId rs)

/-- True when at least one sub-requirement evaluates to Allow. -/
def evalAny (perms : List Permission) (roleId : RoleId) : List Req → Bool
  | [] => false
  | r :: rs => (evalReq perms roleId r).isAllow || evalAny perms roleId rs

/-- True when every sub-requirement evaluates to Allow. -/
def evalAll (perms : List Permission) (roleId : RoleId) : List Req → Bool
  | [] => true
  | r :: rs => (evalReq perms roleId r).isAllow && evalAll perms roleId rs

/-- The missing sets reported by the denied sub-requirements, concatenated
(spec section 4.3: ALL-deny names only what is missing). -/
def missingAll (perms : List Permission) (roleId : RoleId) : List Req → List Permission
  | [] => []
  | r :: rs =>
      (match evalReq perms roleId r with
        | .Allow => []
        | .Deny _ m => m) ++ missingAll perms roleId rs

end

/-- Modelled from the spec: the Policy Evaluator entry point (spec section
4.3) — resolve the role in the Registry first; an unresolved role is a
Deny with reason unknown role and the requirement's full permission set. -/
def evaluate (reg : Registry) (prin : Principal) (r : Req) : Verdict :=
  match reg prin.roleId with
  | none => .Deny "unknown role" (permsOfReq r)
  | some perms => evalReq perms prin.roleId r

/-- The role table of src/README.md Task 1: ADMIN (all operations),
PROJECT_MANAGER (all project and task operations, view and manage team),
TEAM_LEAD (view and update projects, all task operations, view team),
DEVELOPER (view projects, view and update tasks, view team). -/
def ROLES : Registry := fun r =>
  if r = "ADMIN" then
    some [CREATE_PROJECT, VIEW_PROJECT, UPDATE_PROJECT, DELETE_PROJECT,
          CREATE_TASK, VIEW_TASK, UPDATE_TASK, DELETE_TASK,
          VIEW_TEAM, MANAGE_TEAM]
  else if r = "PROJECT_MANAGER" then
    some [CREATE_PROJECT, VIEW_PROJECT, UPDATE_PROJECT, DELETE_PROJECT,
          CREATE_TASK, VIEW_TASK, UPDATE_TASK, DELETE_TASK,
          VIEW_TEAM, MANAGE_TEAM]
  else if r = "TEAM_LEAD" then
    some [VIEW_PROJECT, UPDATE_PROJECT,
          CREATE_TASK, VIEW_TASK, UPDATE_TASK, DELETE_TASK, VIEW_TEAM]
  else if r = "DEVELOPER" then
    some [VIEW_PROJECT, VIEW_TASK, UPDATE_TASK, VIEW_TEAM]
  else none

/-- Modelled from the spec: the coarse status classes exposed to the route
layer (spec sections 4.4 and 6). -/
inductive StatusClass where
  | Unauthorized
  | Forbidden
  | Allowed
deriving DecidableEq, Repr

/-- Modelled from the spec: the guard-level outcome, distinguishing
Unauthenticated from Deny (spec sections 4.3 end, 4.4, 7). -/
inductive GuardVerdict where
  | Unauthenticated
  | Allowed
  | Denied (reason : String) (missing : List Permission)
deriving DecidableEq, Repr

/-- Modelled from the spec: the mapping of guard outcomes to status
classes — Unauthorized for Unauthenticated, Forbidden for Deny (spec
section 4.4 side effects). -/
def statusClassOf : GuardVerdict → StatusClass
  | .Unauthenticated => .Unauthorized
  | .Allowed => .Allowed
  | .Denied _ _ => .Forbidden

/-- Modelled from the spec: the Guard Composer gate — an absent principal
is rejected before reaching the evaluator with the distinct
Unauthenticated kind; otherwise the evaluator verdict is forwarded (spec
sections 4.3 end and 4.4). -/
def guard (reg : Registry) (prin : Option Principal) (r : Req) : GuardVerdict :=
  match prin with
  | none => .Unauthenticated
  | some p =>
      match evaluate reg p r with
      | .Allow => .Allowed
      | .Deny reason m => .Denied reason m

/-- Modelled from the spec: configuration errors raised at startup or
construction time (spec section 7). -/
inductive ConfigError where
  | emptyRequirement
deriving DecidableEq, Repr

/-- Modelled from the spec: AnyOf construction rejects an empty
sub-requirement set with ConfigError (spec section 3 invariants,
Scenario E). -/
def mkAnyOf (rs : List Req) : Except ConfigError Req :=
  if rs.isEmpty then .error .emptyRequirement else .ok (.AnyOf rs)

/-- Modelled from the spec: AllOf construction rejects an empty
sub-requirement set with ConfigError (spec section 3 invariants,
Scenario E). -/
def mkAllOf (rs : List Req) : Except ConfigError Req :=
  if rs.isEmpty then .error .emptyRequirement else .ok (.AllOf rs)

/-- Values of a parsed JSON request body, as JavaScript sees them; an
absent field reads as undefined. -/
inductive JSValue where
  | undefined
  | null
  | bool (b : Bool)
  | num (n : Int)
  | str (s : String)
  | arr (elems : List JSValue)
deriving Repr

/-- JavaScript truthiness: undefined, null, false, 0 and the empty string
are falsy; every array and object is truthy. -/
def truthy : JSValue → Bool
  | .undefined => false
  | .null => false
  | .bool b => b
  | .num n => decide (n ≠ 0)
  | .str s => decide (s ≠ "")
  | .arr _ => true

/-- A request body: a finite mapping from field names to JSON values. -/
abbrev Payload := List (String × JSValue)

/-- Reading a field of the body: absent fields read as undefined. -/
def getField (body : Payload) (name : String) : JSValue :=
  (body.lookup name).getD .undefined

/-- Whether the body includes the named field at all, whatever its
value. -/
def fieldPresent (body : Payload) (name : String) : Bool :=
  (body.lookup name).isSome

/-- The update-route guard dispatch from the src/README.md FAQ (how do I
handle team member updates): if (req.body.teamMembers) dispatches to
hasAllPermissions over UPDATE_PROJECT and MANAGE_TEAM, else to the single
UPDATE_PROJECT check. The JavaScript condition is truthiness of the field
value, so this is the requirement the dispatch enforces. -/
def selectUpdateRequirement (body : Payload) : Req :=
  if truthy (getField body "teamMembers") then
    AllOfP [UPDATE_PROJECT, MANAGE_TEAM]
  else
    .Single UPDATE_PROJECT

/-- The argument accepted by hasAnyPermission in the src/README.md FAQ: a
single permission or an array of permissions. -/
inductive PermArg where
  | single (p : Permission)
  | array (ps : List Permission)

/-- The normalization step of hasAnyPermission in the src/README.md FAQ:
convert input to array even if single permission. -/
def normalizePermArg : PermArg → List Permission
  | .single p => [p]
  | .array ps => ps

/-- What the returned Express middleware does with a request: call next,
or send a response with a status code and a message. -/
inductive MwResult where
  | next
  | respond (status : Nat) (message : String)
deriving DecidableEq, Repr

/-- The for-loop of hasAnyPermission in the src/README.md FAQ: return
next() at the first required permission included in the user role
permissions, otherwise respond 403 Insufficient permissions. -/
def anyPermLoop (userPerms : List Permission) : List Permission → MwResult
  | [] => .respond 403 "Insufficient permissions"
  | p :: ps => if userPerms.contains p then .next else anyPermLoop userPerms ps

/-- hasAnyPermission from the src/README.md FAQ, applied to a request
whose user role grants userPerms: normalize the argument, then run the
loop. -/
def hasAnyPermission (arg : PermArg) (userPerms : List Permission) : MwResult :=
  anyPermLoop userPerms (normalizePermArg arg)

/-- The mock user object set by the authentication middleware in
src/app.js. -/
structure MockUser where
  _id : String
  role : String
deriving DecidableEq, Repr

/-- An inbound request as the Express pipeline of src/app.js sees it: the
optional authenticated user and the parsed JSON body. -/
structure Request where
  user : Option MockUser
  body : Payload

/-- The mock authentication middleware of src/app.js lines 10-17: it
unconditionally sets req.user to the fixed mock principal and calls
next. -/
def mockAuthMiddleware (req : Request) : Request :=
  { req with user := some { _id := "mockUserId", role := "DEVELOPER" } }

/-- The pipeline of src/app.js: express.json and the mock authentication
middleware are installed app-wide with app.use before any route is
mounted, so every route handler receives the request after
mockAuthMiddleware ran. -/
def runRoute {R : Type} (handler : Request → R) (req : Request) : R :=
  handler (mockAuthMiddleware req)

/-- The registry of Scenario D of the spec: DEVELOPER holding only
CREATE_PROJECT. -/
def scenarioDRegistry : Registry := fun r =>
  if r = "DEVELOPER" then some [CREATE_PROJECT] else none

/-- The composite creation requirement of Scenario D: privileged role, or
both permissions of the pair. -/
def scenarioDRequirement : Req :=
  .AnyOf [.RoleExact "PROJECT_MANAGER", AllOfP [CREATE_PROJECT, MANAGE_TEAM]]

/-- A body whose teamMembers field is present but null (falsy). -/
def bodyTeamNull : Payload := [("teamMembers", JSValue.null)]

/-- A body whose teamMembers field is a non-empty array (truthy). -/
def bodyTeamList : Payload := [("teamMembers", JSValue.arr [JSValue.str "userId1"])]

/-- A body without a teamMembers field. -/
def bodyTitleOnly : Payload := [("title", JSValue.str "Updated Title")]

theorem permsOfList_map_single (ps : List Permission) :
    permsOfList (ps.map Req.Single) = ps := by
  induction ps with
  | nil => rfl
  | cons p ps ih => simp [permsOfList, permsOfReq, ih]

theorem evalAny_map_single (perms : List Permission) (roleId : RoleId)
    (ps : List Permission) :
    evalAny perms roleId (ps.map Req.Single) = ps.any (fun p => perms.contains p) := by
  induction ps with
  | nil => rfl
  | cons p ps ih =>
      simp only [List.map, evalAny, evalReq, List.any_cons, ih]
      cases h : perms.contains p <;> simp [h, Verdict.isAllow]

theorem evalAll_map_single (perms : List Permission) (roleId : RoleId)
    (ps : List Permission) :
    evalAll perms roleId (ps.map Req.Single) = ps.all (fun p => perms.contains p) := by
  induction ps with
  | nil => rfl
  | cons p ps ih =>
      simp only [List.map, evalAll, evalReq, List.all_cons, ih]
      cases h : perms.contains p <;> simp [h, Verdict.isAllow]

theorem missingAll_map_single (perms : List Permission) (roleId : RoleId)
    (ps : List Permission) :
    missingAll perms roleId (ps.map Req.Single) =
      ps.filter (fun p => !perms.contains p) := by
  induction ps with
  | nil => rfl
  | cons p ps ih =>
      simp only [List.map, missingAll, evalReq, List.filter_cons, ih]
      cases h : perms.contains p <;> simp [h]

theorem evaluate_allOfP (reg : Registry) (sid : String) (rid : RoleId)
    (perms : List Permission) (hR : reg rid = some perms) (ps : List Permission) :
    evaluate reg ⟨sid, rid⟩ (AllOfP ps) =
      if ps.all (fun p => perms.contains p) then Verdict.Allow
      else Verdict.Deny "missing permissions" (ps.filter (fun p => !perms.contains p)) := by
  unfold evaluate
  simp only [hR]
  unfold AllOfP
  rw [show evalReq perms rid (Req.AllOf (ps.map Req.Single)) =
      if evalAll perms rid (ps.map Req.Single) then Verdict.Allow
      else Verdict.Deny "missing permissions" (missingAll perms rid (ps.map Req.Single))
    from rfl]
  rw [evalAll_map_single, missingAll_map_single]

theorem evaluate_anyOfP (reg : Registry) (sid : String) (rid : RoleId)
    (perms : List Permission) (hR : reg rid = some perms) (ps : List Permission) :
    evaluate reg ⟨sid, rid⟩ (AnyOfP ps) =
      if ps.any (fun p => perms.contains p) then Verdict.Allow
      else Verdict.Deny "insufficient permissions" ps := by
  unfold evaluate
  simp only [hR]
  unfold AnyOfP
  rw [show evalReq perms rid (Req.AnyOf (ps.map Req.Single)) =
      if evalAny perms rid (ps.map Req.Single) then Verdict.Allow
      else Verdict.Deny "insufficient permissions" (permsOfList (ps.map Req.Single))
    from rfl]
  rw [evalAny_map_single, permsOfList_map_single]

/-- Claim C2: for every role resolving to a permission set perms and every
non-empty permission set ps, AllOf(ps) evaluates to Allow iff ps is a
subset of perms, and every Deny reports exactly the missing subset ps
minus perms, never the whole of ps. -/
theorem allOf_allow_iff_subset_and_missing_precise
    (reg : Registry) (sid : String) (rid : RoleId) (perms : List Permission)
    (hR : reg rid = some perms) (ps : List Permission) (_hne : ps ≠ []) :
    (evaluate reg ⟨sid, rid⟩ (AllOfP ps) = Verdict.Allow ↔
      ∀ p ∈ ps, perms.contains p = true) ∧
    (∀ reason m, evaluate reg ⟨sid, rid⟩ (AllOfP ps) = Verdict.Deny reason m →
      m = ps.filter (fun p => !perms.contains p)) := by
  rw [evaluate_allOfP reg sid rid perms hR ps]
  cases hall : ps.all (fun p => perms.contains p) with
  | false =>
      rw [if_neg (by simp [hall])]
      constructor
      · constructor
        · intro h; exact absurd h (by simp)
        · intro hforall
          have hh : ps.all (fun p => perms.contains p) = true := by
            rw [List.all_eq_true]; exact hforall
          rw [hall] at hh; cases hh
      · intro reason m h
        injection h with h1 h2
        exact h2.symm
  | true =>
      rw [if_pos (by simp [hall])]
      constructor
      · constructor
        · intro _; rw [List.all_eq_true] at hall; exact hall
        · intro _; rfl
      · intro reason m h; exact absurd h (by simp)

/-- Witness for C2, at Scenario C of the spec: TEAM_LEAD against
AllOf of UPDATE_PROJECT and MANAGE_TEAM. -/
theorem allOf_scenarioC_witness :
    ROLES "TEAM_LEAD" = some [VIEW_PROJECT, UPDATE_PROJECT, CREATE_TASK, VIEW_TASK,
      UPDATE_TASK, DELETE_TASK, VIEW_TEAM] ∧
    ([UPDATE_PROJECT, MANAGE_TEAM] : List Permission) ≠ [] ∧
    (evaluate ROLES ⟨"u", "TEAM_LEAD"⟩ (AllOfP [UPDATE_PROJECT, MANAGE_TEAM]) =
        Verdict.Allow ↔
      ∀ p ∈ ([UPDATE_PROJECT, MANAGE_TEAM] : List Permission),
        ([VIEW_PROJECT, UPDATE_PROJECT, CREATE_TASK, VIEW_TASK, UPDATE_TASK,
          DELETE_TASK, VIEW_TEAM] : List Permission).contains p = true) :=
  ⟨rfl, by decide,
    (allOf_allow_iff_subset_and_missing_precise ROLES "u" "TEAM_LEAD" _ rfl _ (by decide)).1⟩

/-- Claim C3: for every role resolving to a permission set perms and every
non-empty permission set ps, AnyOf(ps) evaluates to Allow iff ps meets
perms, and every Deny reports the full candidate set ps, which is never
empty. -/
theorem anyOf_allow_iff_inter_and_full_missing
    (reg : Registry) (sid : String) (rid : RoleId) (perms : List Permission)
    (hR : reg rid = some perms) (ps : List Permission) (hne : ps ≠ []) :
    (evaluate reg ⟨sid, rid⟩ (AnyOfP ps) = Verdict.Allow ↔
      ∃ p ∈ ps, perms.contains p = true) ∧
    (∀ reason m, evaluate reg ⟨sid, rid⟩ (AnyOfP ps) = Verdict.Deny reason m →
      m = ps ∧ m ≠ []) := by
  rw [evaluate_anyOfP reg sid rid perms hR ps]
  cases hany : ps.any (fun p => perms.contains p) with
  | false =>
      rw [if_neg (by simp [hany])]
      constructor
      · constructor
        · intro h; exact absurd h (by simp)
        · intro hex
          have hh : ps.any (fun p => perms.contains p) = true := by
            rw [List.any_eq_true]; exact hex
          rw [hany] at hh; cases hh
      · intro reason m h
        injection h with h1 h2
        exact ⟨h2.symm, h2 ▸ hne⟩
  | true =>
      rw [if_pos (by simp [hany])]
      constructor
      · constructor
        · intro _; rw [List.any_eq_true] at hany; exact hany
        · intro _; rfl
      · intro reason m h; exact absurd h (by simp)

/-- Witness for C3: DEVELOPER against AnyOf of CREATE_PROJECT and
MANAGE_TEAM. -/
theorem anyOf_developer_witness :
    ROLES "DEVELOPER" = some [VIEW_PROJECT, VIEW_TASK, UPDATE_TASK, VIEW_TEAM] ∧
    ([CREATE_PROJECT, MANAGE_TEAM] : List Permission) ≠ [] ∧
    (evaluate ROLES ⟨"u", "DEVELOPER"⟩ (AnyOfP [CREATE_PROJECT, MANAGE_TEAM]) =
        Verdict.Allow ↔
      ∃ p ∈ ([CREATE_PROJECT, MANAGE_TEAM] : List Permission),
        ([VIEW_PROJECT, VIEW_TASK, UPDATE_TASK, VIEW_TEAM] : List Permission).contains p
          = true) :=
  ⟨rfl, by decide,
    (anyOf_allow_iff_inter_and_full_missing ROLES "u" "DEVELOPER" _ rfl _ (by decide)).1⟩

/-- Claim C4: for every role resolving to a permission set perms and every
permission p, Single(p) evaluates to Allow iff perms holds p, and on Deny
the reason names the single missing permission p and the missing set is
exactly p. -/
theorem single_allow_iff_mem_and_reason
    (reg : Registry) (sid : String) (rid : RoleId) (perms : List Permission)
    (hR : reg rid = some perms) (p : Permission) :
    (evaluate reg ⟨sid, rid⟩ (.Single p) = Verdict.Allow ↔ perms.contains p = true) ∧
    (perms.contains p = false →
      evaluate reg ⟨sid, rid⟩ (.Single p) =
        Verdict.Deny ("missing permission " ++ p) [p]) := by
  unfold evaluate
  simp only [hR]
  rw [show evalReq perms rid (Req.Single p) =
      if perms.contains p then Verdict.Allow
      else Verdict.Deny ("missing permission " ++ p) [p] from rfl]
  cases h : perms.contains p <;> simp [h]

/-- Witness for C4, at Scenario A of the spec: DEVELOPER against
Single UPDATE_PROJECT is denied, missing exactly UPDATE_PROJECT. -/
theorem single_scenarioA_witness :
    ROLES "DEVELOPER" = some [VIEW_PROJECT, VIEW_TASK, UPDATE_TASK, VIEW_TEAM] ∧
    evaluate ROLES ⟨"u", "DEVELOPER"⟩ (.Single UPDATE_PROJECT) =
      Verdict.Deny ("missing permission " ++ UPDATE_PROJECT) [UPDATE_PROJECT] :=
  ⟨rfl,
    (single_allow_iff_mem_and_reason ROLES "u" "DEVELOPER" _ rfl UPDATE_PROJECT).2 (by decide)⟩

/-- Claim C5: RoleExact(r) evaluates to Allow iff the principal role
identifier equals r, independent of the permission contents (the
permission set perms is arbitrary); and in Scenario D of the spec, a
DEVELOPER holding only CREATE_PROJECT is denied the composite
AnyOf(RoleExact(PROJECT_MANAGER), AllOf(CREATE_PROJECT, MANAGE_TEAM)). -/
theorem roleExact_allow_iff_role_eq
    (reg : Registry) (sid : String) (rid : RoleId) (perms : List Permission)
    (r : RoleId) (hR : reg rid = some perms) :
    (evaluate reg ⟨sid, rid⟩ (.RoleExact r) = Verdict.Allow ↔ rid = r) ∧
    evaluate scenarioDRegistry ⟨"u", "DEVELOPER"⟩ scenarioDRequirement =
      Verdict.Deny "insufficient permissions" [CREATE_PROJECT, MANAGE_TEAM] := by
  constructor
  · unfold evaluate
    simp only [hR]
    rw [show evalReq perms rid (Req.RoleExact r) =
        if rid = r then Verdict.Allow
        else Verdict.Deny ("requires role " ++ r ++ ", has role " ++ rid) [] from rfl]
    by_cases h : rid = r <;> simp [h]
  · rfl

/-- Witness for C5: ADMIN against RoleExact ADMIN. -/
theorem roleExact_admin_witness :
    ROLES "ADMIN" = some [CREATE_PROJECT, VIEW_PROJECT, UPDATE_PROJECT, DELETE_PROJECT,
      CREATE_TASK, VIEW_TASK, UPDATE_TASK, DELETE_TASK, VIEW_TEAM, MANAGE_TEAM] ∧
    (evaluate ROLES ⟨"u", "ADMIN"⟩ (.RoleExact "ADMIN") = Verdict.Allow ↔
      ("ADMIN" : RoleId) = "ADMIN") :=
  ⟨rfl, (roleExact_allow_iff_role_eq ROLES "u" "ADMIN" _ "ADMIN" rfl).1⟩

/-- Claim C6: for every requirement, a request with an absent principal
yields the distinct Unauthenticated kind, mapped to the Unauthorized
status class, and is never a Denied missing-permission verdict. -/
theorem unauthenticated_distinct_from_deny (reg : Registry) (r : Req) :
    guard reg none r = GuardVerdict.Unauthenticated ∧
    statusClassOf (guard reg none r) = StatusClass.Unauthorized ∧
    ∀ reason m, guard reg none r ≠ GuardVerdict.Denied reason m := by
  refine ⟨rfl, rfl, ?_⟩
  intro reason m h
  simp [guard] at h

/-- Witness for C6: the guard of an absent principal on
Single UPDATE_PROJECT. -/
theorem unauthenticated_witness :
    guard ROLES none (Req.Single UPDATE_PROJECT) = GuardVerdict.Unauthenticated ∧
    guard ROLES none (Req.Single UPDATE_PROJECT) ≠
      GuardVerdict.Denied "missing permission UPDATE_PROJECT" [UPDATE_PROJECT] :=
  ⟨(unauthenticated_distinct_from_deny ROLES (.Single UPDATE_PROJECT)).1,
   (unauthenticated_distinct_from_deny ROLES (.Single UPDATE_PROJECT)).2.2 _ _⟩

/-- Claim C7: constructing AnyOf or AllOf of the empty set fails at
construction time with ConfigError, and every successfully constructed
ANY or ALL requirement has a non-empty sub-requirement set, so no empty
requirement ever reaches evaluation. -/
theorem empty_requirement_config_error :
    mkAnyOf [] = Except.error ConfigError.emptyRequirement ∧
    mkAllOf [] = Except.error ConfigError.emptyRequirement ∧
    (∀ rs r, mkAnyOf rs = Except.ok r → rs ≠ []) ∧
    (∀ rs r, mkAllOf rs = Except.ok r → rs ≠ []) := by
  refine ⟨rfl, rfl, ?_, ?_⟩ <;>
    · intro rs r h hnil
      subst hnil
      simp [mkAnyOf, mkAllOf] at h

/-- Witness for C7: a singleton AnyOf constructs successfully and its set
is non-empty. -/
theorem empty_requirement_witness :
    mkAnyOf [Req.Single UPDATE_PROJECT] =
      Except.ok (Req.AnyOf [Req.Single UPDATE_PROJECT]) ∧
    ([Req.Single UPDATE_PROJECT] : List Req) ≠ [] :=
  ⟨rfl, empty_requirement_config_error.2.2.1 [Req.Single UPDATE_PROJECT]
    (Req.AnyOf [Req.Single UPDATE_PROJECT]) rfl⟩

/-- Claim C8: for every requirement and every principal whose role
identifier does not resolve in the Registry, evaluation yields Deny with
reason unknown role and the full permission set of the requirement as the
missing set, and never Allow. -/
theorem unknown_role_denies (reg : Registry) (prin : Principal) (r : Req)
    (h : reg prin.roleId = none) :
    evaluate reg prin r = Verdict.Deny "unknown role" (permsOfReq r) ∧
    evaluate reg prin r ≠ Verdict.Allow := by
  unfold evaluate
  rw [h]
  exact ⟨rfl, by simp⟩

/-- Witness for C8: the role INTERN is not in the Registry and is denied
with reason unknown role. -/
theorem unknown_role_witness :
    ROLES "INTERN" = none ∧
    evaluate ROLES ⟨"u", "INTERN"⟩ (Req.Single UPDATE_PROJECT) =
      Verdict.Deny "unknown role" [UPDATE_PROJECT] :=
  ⟨rfl, (unknown_role_denies ROLES ⟨"u", "INTERN"⟩ (Req.Single UPDATE_PROJECT) rfl).1⟩

/-- Claim C9: every request that reaches a route handler of src/app.js
has req.user set by the mock authentication middleware to the fixed
principal with id mockUserId and role DEVELOPER; no request is ever
unauthenticated and no role other than DEVELOPER reaches a permission
check. -/
theorem mock_auth_fixes_principal {R : Type} (handler : Request → R) (req : Request) :
    (mockAuthMiddleware req).user = some { _id := "mockUserId", role := "DEVELOPER" } ∧
    ((mockAuthMiddleware req).user).isSome = true ∧
    (∀ u, (mockAuthMiddleware req).user = some u → u.role = "DEVELOPER") ∧
    runRoute handler req =
      handler { req with user := some { _id := "mockUserId", role := "DEVELOPER" } } := by
  refine ⟨rfl, rfl, ?_, rfl⟩
  intro u h
  simp [mockAuthMiddleware] at h
  rw [← h]

/-- Witness for C9: a handler reading req.user through the pipeline sees
the fixed mock principal, even on a request arriving with no user. -/
theorem mock_auth_witness :
    (mockAuthMiddleware { user := none, body := [] }).user =
      some { _id := "mockUserId", role := "DEVELOPER" } ∧
    runRoute (fun req => req.user) { user := none, body := [] } =
      some { _id := "mockUserId", role := "DEVELOPER" } :=
  ⟨(mock_auth_fixes_principal (fun req => req.user) { user := none, body := [] }).1,
   (mock_auth_fixes_principal (fun req => req.user) { user := none, body := [] }).2.2.2⟩

/-- Claim C10: hasAnyPermission normalizes its argument, so for every
single permission p and every user permission set, the middleware for the
bare p behaves identically to the middleware for the one-element array
containing p: same decision and same response. -/
theorem hasAnyPermission_single_eq_array (p : Permission) (userPerms : List Permission) :
    hasAnyPermission (.single p) userPerms = hasAnyPermission (.array [p]) userPerms := rfl

/-- Counterexample for C1 as stated: the body with teamMembers present but
null includes the team-membership field yet selects Single
UPDATE_PROJECT, not the AllOf requirement; and two bodies with the same
set of present field names (exactly teamMembers) select different
requirements when the values differ in truthiness. -/
theorem update_selection_presence_counterexample :
    fieldPresent bodyTeamNull "teamMembers" = true ∧
    selectUpdateRequirement bodyTeamNull = Req.Single UPDATE_PROJECT ∧
    selectUpdateRequirement bodyTeamNull ≠ AllOfP [UPDATE_PROJECT, MANAGE_TEAM] ∧
    fieldPresent bodyTeamList "teamMembers" = true ∧
    selectUpdateRequirement bodyTeamList = AllOfP [UPDATE_PROJECT, MANAGE_TEAM] ∧
    selectUpdateRequirement bodyTeamNull ≠ selectUpdateRequirement bodyTeamList := by
  refine ⟨rfl, rfl, ?_, rfl, rfl, ?_⟩ <;>
    · intro h
      simp [selectUpdateRequirement, bodyTeamNull, bodyTeamList, getField, truthy,
        AllOfP, List.lookup] at h

/-- Claim C1 as amended: the selection is total and depends only on the
JavaScript truthiness of the teamMembers field value — a truthy value
selects AllOf of UPDATE_PROJECT and MANAGE_TEAM, and an absent field or a
falsy value selects Single UPDATE_PROJECT; two payloads whose teamMembers
values agree in truthiness always select the same requirement. -/
theorem update_selection_truthiness_total (body : Payload) :
    (selectUpdateRequirement body = AllOfP [UPDATE_PROJECT, MANAGE_TEAM] ↔
      truthy (getField body "teamMembers") = true) ∧
    (selectUpdateRequirement body = Req.Single UPDATE_PROJECT ↔
      truthy (getField body "teamMembers") = false) ∧
    (∀ body2 : Payload,
      truthy (getField body "teamMembers") = truthy (getField body2 "teamMembers") →
      selectUpdateRequirement body = selectUpdateRequirement body2) := by
  cases h : truthy (getField body "teamMembers") with
  | false =>
      refine ⟨?_, ?_, ?_⟩
      · simp [selectUpdateRequirement, h, AllOfP]
      · simp [selectUpdateRequirement, h]
      · intro body2 h2
        simp [selectUpdateRequirement, h, ← h2]
  | true =>
      refine ⟨?_, ?_, ?_⟩
      · simp [selectUpdateRequirement, h, AllOfP]
      · simp [selectUpdateRequirement, h, AllOfP]
      · intro body2 h2
        simp [selectUpdateRequirement, h, ← h2]

/-- Witness for the amended C1: a body with a null teamMembers field and a
body with no teamMembers field agree in truthiness and select the same
requirement. -/
theorem update_selection_truthiness_witness :
    truthy (getField bodyTeamNull "teamMembers") =
      truthy (getField bodyTitleOnly "teamMembers") ∧
    selectUpdateRequirement bodyTeamNull = selectUpdateRequirement bodyTitleOnly :=
  ⟨rfl, (update_selection_truthiness_total bodyTeamNull).2.2 bodyTitleOnly rfl⟩

end RBAC
